import Mathlib

/-!
Verification development for the CID (connection identifier) rotation
lifecycle manager of the repository: a shallow embedding of
`cid_lifecycle.py` and of `force_rotate_all` from `server.py`, followed by
theorems about the embedded operations.

Modelling conventions:
  * Python floats (timestamps, policy parameters) are modelled as rationals;
    the only infinite float the code produces, the sentinel returned by
    `_compute_next_deadline` when rotation is disabled, is modelled by a
    dedicated constructor `FloatV.inf`.
  * The opaque transport endpoint (the aioquic connection object) is
    modelled by `Endpoint`: association lists give, for each attribute
    name, whether the attribute exists and what calling it (for operations)
    or reading it (for fields) yields.  A zero-argument call either returns
    a value (modelled by its `str` rendering) or raises an exception
    (modelled by `PyExc`, exception type name plus message).
  * The JSONL event log is modelled as the list of appended records; the
    file is append-only, so the list order is the file order.
  * `force_rotate_all` in Python prints its counter and returns `None`;
    the embedding returns the counter value so that theorems can speak
    about it.
-/

/-- A Python exception as observed by an `except Exception as e` handler:
the class name (`type(e).__name__`) and the message (`str(e)`). -/
structure PyExc where
  ty : String
  msg : String
deriving DecidableEq, Repr

/-- Value of a diagnostic attribute on the endpoint: raw bytes, or any
other value together with its `str` rendering. -/
inductive PyVal
  | bytes (b : List Nat)
  | other (s : String)
deriving DecidableEq, Repr

/-- Outcome of a zero-argument call on the transport surface:
`ret v` returns a value (its `str` rendering), `exc e` raises. -/
inductive CallRes
  | ret (v : String)
  | exc (e : PyExc)
deriving DecidableEq, Repr

/-- An identifier-manager object attached to the endpoint.  `ops` maps each
zero-argument callable attribute name to the outcome of calling it.
A name absent from `ops` is an attribute the manager lacks. -/
structure Manager where
  ops : List (String × CallRes)
deriving DecidableEq, Repr

/-- The opaque transport endpoint handle (`quic` object).
`managers` models the candidate manager attributes: a name absent from the
list fails `hasattr`; `(name, none)` is an attribute whose value is Python
`None`; `(name, some m)` is an attached manager.  `ops` models the
endpoint-level zero-argument callables, `fields` the diagnostic fields. -/
structure Endpoint where
  managers : List (String × Option Manager)
  ops : List (String × CallRes)
  fields : List (String × PyVal)
deriving DecidableEq, Repr

/-- First-match association-list lookup (Python attribute/dict lookup). -/
def lookupS {α : Type} : List (String × α) → String → Option α
  | [], _ => none
  | (k, v) :: rest, key => if k = key then some v else lookupS rest key

/-- `getattr(quic, name, None)`: absent attribute and attribute whose value
is `None` both give `none`. -/
def getMgr (quic : Endpoint) (n : String) : Option Manager :=
  match lookupS quic.managers n with
  | none => none
  | some m => m

/-- The `detail` dictionary built by `_try_rotate_local_cid`.  The Python
dict always carries `strategy`, `found` and `note`; `issued` is set only on
a Strategy-B success; `debug` holds the diagnostic fields dumped on the
no-strategy fallback path. -/
structure Detail where
  strategy : Option String
  found : List String
  note : String
  issued : Option String
  debug : List (String × String)
deriving DecidableEq, Repr

/-- One record appended to the rotation JSONL log (sans timestamp). -/
structure RotationEvent where
  event : String
  role : String
  reason : String
  detail : Detail
deriving DecidableEq, Repr

/-- `RotationPolicy` dataclass. -/
structure RotationPolicy where
  rotate_interval_s : ℚ
  jitter_s : ℚ
  min_gap_s : ℚ
deriving DecidableEq, Repr

/-- A Python float that is either finite or the `float("inf")` sentinel. -/
inductive FloatV
  | inf
  | fin (q : ℚ)
deriving DecidableEq, Repr

/-- Comparison `now < deadline` for a finite `now` against a possibly
infinite deadline (Python float comparison). -/
def timeLt (q : ℚ) : FloatV → Bool
  | FloatV.inf => true
  | FloatV.fin r => decide (q < r)

/-- Python `int(x)` on a float: truncation toward zero. -/
def pyInt (q : ℚ) : ℤ := if 0 ≤ q then ⌊q⌋ else ⌈q⌉

/-- `_compute_next_deadline`: the infinity sentinel when rotation is
disabled, otherwise `now + interval + jitter` with the jitter derived from
the fractional part of `now`. -/
def _compute_next_deadline (p : RotationPolicy) (now : ℚ) : FloatV :=
  if p.rotate_interval_s ≤ 0 then FloatV.inf
  else
    let frac := now - (pyInt now : ℚ)
    let jitter := frac * p.jitter_s
    FloatV.fin (now + p.rotate_interval_s + jitter)

/-- Finite value of a `FloatV` (the sentinel is mapped to 0; used only
under a proof that the value is finite). -/
def finVal : FloatV → ℚ
  | FloatV.inf => 0
  | FloatV.fin q => q

/-- Lowercase hex digit. -/
def hexDigit (n : Nat) : Char :=
  if n < 10 then Char.ofNat (48 + n) else Char.ofNat (87 + n)

/-- Two-digit lowercase hex rendering of one byte (`bytes.hex()`). -/
def byteHex (b : Nat) : String :=
  String.mk [hexDigit (b / 16 % 16), hexDigit (b % 16)]

/-- `bytes.hex()` of a byte string. -/
def hexStr (bs : List Nat) : String := String.join (bs.map byteHex)

/-- `_hex(v) if isinstance(v, (bytes, bytearray)) else str(v)`. -/
def renderField : PyVal → String
  | PyVal.bytes b => hexStr b
  | PyVal.other s => s

/-- The fixed candidate manager attribute names probed by the resolver. -/
def candidates : List String :=
  ["_local_cid_manager", "_cid_manager", "_connection_id_manager",
   "_local_connection_id_manager"]

/-- The issue-style operation names tried by Strategy B. -/
def issueFns : List String := ["issue_connection_id", "issue", "new"]

/-- The endpoint-level operation names tried by Strategy C. -/
def directFns : List String :=
  ["change_connection_id", "rotate_connection_id", "request_connection_id"]

/-- The diagnostic field names dumped on the fallback path. -/
def dbgNames : List String :=
  ["_local_cid", "_original_destination_connection_id", "_host_cid"]

/-- Outcome of the Strategy A / Strategy C loops: whether a call returned
normally, plus the threaded `strategy` and `note` entries of `detail`. -/
structure AOut where
  ok : Bool
  strategy : Option String
  note : String
deriving DecidableEq, Repr

/-- Outcome of the Strategy B loop: as `AOut` plus the `issued` entry. -/
structure BOut where
  ok : Bool
  strategy : Option String
  note : String
  issued : Option String
deriving DecidableEq, Repr

/-- Strategy A loop of `_try_rotate_local_cid`: for each candidate name, if
a manager is attached and has a callable `rotate`, record the strategy and
call it; a normal return ends the resolver, an exception is recorded in the
note and the loop continues with the next candidate. -/
def loopA (quic : Endpoint) : List String → Option String → String → AOut
  | [], strat, note => ⟨false, strat, note⟩
  | n :: rest, strat, note =>
    match getMgr quic n with
    | none => loopA quic rest strat note
    | some m =>
      match lookupS m.ops "rotate" with
      | none => loopA quic rest strat note
      | some (CallRes.ret _) => ⟨true, some (n ++ ".rotate()"), note⟩
      | some (CallRes.exc e) =>
        loopA quic rest (some (n ++ ".rotate()"))
          ("rotate() raised: " ++ e.ty ++ ": " ++ e.msg)

/-- Inner loop of Strategy B over the issue-style operation names of one
manager. -/
def loopBfns (n : String) (m : Manager) :
    List String → Option String → String → BOut
  | [], strat, note => ⟨false, strat, note, none⟩
  | f :: fns, strat, note =>
    match lookupS m.ops f with
    | none => loopBfns n m fns strat note
    | some (CallRes.ret v) => ⟨true, some (n ++ "." ++ f ++ "()"), note, some v⟩
    | some (CallRes.exc e) =>
      loopBfns n m fns (some (n ++ "." ++ f ++ "()"))
        (f ++ " raised: " ++ e.ty ++ ": " ++ e.msg)

/-- Strategy B loop of `_try_rotate_local_cid` over the candidate
managers. -/
def loopB (quic : Endpoint) : List String → Option String → String → BOut
  | [], strat, note => ⟨false, strat, note, none⟩
  | n :: rest, strat, note =>
    match getMgr quic n with
    | none => loopB quic rest strat note
    | some m =>
      let r := loopBfns n m issueFns strat note
      if r.ok then r else loopB quic rest r.strategy r.note

/-- Strategy C loop of `_try_rotate_local_cid` over endpoint-level
operation names. -/
def loopC (quic : Endpoint) : List String → Option String → String → AOut
  | [], strat, note => ⟨false, strat, note⟩
  | f :: fns, strat, note =>
    match lookupS quic.ops f with
    | none => loopC quic fns strat note
    | some (CallRes.ret _) => ⟨true, some ("quic." ++ f ++ "()"), note⟩
    | some (CallRes.exc e) =>
      loopC quic fns (some ("quic." ++ f ++ "()"))
        (f ++ " raised: " ++ e.ty ++ ": " ++ e.msg)

/-- Fallback diagnostic dump: each known debug field that exists on the
endpoint, rendered in hex for byte strings and via `str` otherwise. -/
def debugDump (quic : Endpoint) : List (String × String) :=
  dbgNames.filterMap fun n =>
    (lookupS quic.fields n).map fun v => (n, renderField v)

/-- The note used when no strategy attempt left a note. -/
def noApiNote : String := "No known CID manager API found on this aioquic version."

/-- `_try_rotate_local_cid`: discovery, Strategies A, B, C, then the
fallback diagnostic dump.  Total by construction, which models the Python
contract that the resolver never raises to its caller. -/
def _try_rotate_local_cid (quic : Endpoint) : Bool × Detail :=
  let found := candidates.filter fun n => (lookupS quic.managers n).isSome
  let a := loopA quic candidates none ""
  if a.ok then (true, ⟨a.strategy, found, a.note, none, []⟩)
  else
    let b := loopB quic candidates a.strategy a.note
    if b.ok then (true, ⟨b.strategy, found, b.note, b.issued, []⟩)
    else
      let c := loopC quic directFns b.strategy b.note
      if c.ok then (true, ⟨c.strategy, found, c.note, none, []⟩)
      else
        let note := if c.note = "" then noApiNote else c.note
        (false, ⟨c.strategy, found, note, none, debugDump quic⟩)

/-- Mutable scheduling state of `CidLifecycleManager`. -/
structure CidLifecycleManager where
  policy : RotationPolicy
  role : String
  _next_deadline : FloatV
  _last_rotate : ℚ
deriving DecidableEq, Repr

/-- The `CidLifecycleManager` constructor: deadline computed from the
construction time, `_last_rotate` zero. -/
def CidLifecycleManager.init (policy : RotationPolicy) (role : String)
    (now0 : ℚ) : CidLifecycleManager :=
  ⟨policy, role, _compute_next_deadline policy now0, 0⟩

/-- `maybe_rotate`: step 1 returns when the deadline has not passed; step 2
advances the deadline without attempting or logging when inside the
anti-churn gap; step 3 invokes the resolver, appends one event, sets
`_last_rotate` to `now` and recomputes the deadline. -/
def maybe_rotate (s : CidLifecycleManager) (log : List RotationEvent)
    (quic : Endpoint) (now : ℚ) (reason : String) :
    CidLifecycleManager × List RotationEvent :=
  if timeLt now s._next_deadline then (s, log)
  else if now - s._last_rotate < s.policy.min_gap_s then
    ({ s with _next_deadline := _compute_next_deadline s.policy now }, log)
  else
    let r := _try_rotate_local_cid quic
    let ev : RotationEvent :=
      ⟨if r.1 then "rotate_ok" else "rotate_failed", s.role, reason, r.2⟩
    ({ s with _last_rotate := now,
              _next_deadline := _compute_next_deadline s.policy now },
      log ++ [ev])

/-- A sequence of timer ticks: each tick calls `maybe_rotate` with the
given endpoint, time and reason. -/
def runTicks : CidLifecycleManager → List RotationEvent →
    List (Endpoint × ℚ × String) → CidLifecycleManager × List RotationEvent
  | s, log, [] => (s, log)
  | s, log, (q, t, r) :: rest =>
    let st := maybe_rotate s log q t r
    runTicks st.1 st.2 rest

/-- A registered server protocol as seen by `force_rotate_all`: either a
live endpoint handle, or one whose processing raises (e.g. a connection
torn down concurrently), modelled by the exception observed. -/
inductive ProtoHandle
  | ok (quic : Endpoint)
  | raising (ty : String) (msg : String)
deriving DecidableEq, Repr

/-- Whether processing this handle raises. -/
def ProtoHandle.isRaising : ProtoHandle → Bool
  | ProtoHandle.ok _ => false
  | ProtoHandle.raising _ _ => true

/-- `force_rotate_all` from `server.py`: iterate a snapshot of the
registry; for each live endpoint invoke the resolver directly and log its
outcome with reason `manual`; a raised exception is caught and logged as a
failure whose detail holds only the note, and does not increment the
counter.  The returned number models the `count` the Python function
prints (the Python function itself returns `None`). -/
def force_rotate_all : List ProtoHandle → List RotationEvent →
    List RotationEvent × Nat
  | [], log => (log, 0)
  | ProtoHandle.ok quic :: rest, log =>
    let r := _try_rotate_local_cid quic
    let ev : RotationEvent :=
      ⟨if r.1 then "rotate_ok" else "rotate_failed", "server", "manual", r.2⟩
    let r2 := force_rotate_all rest (log ++ [ev])
    (r2.1, r2.2 + 1)
  | ProtoHandle.raising ty msg :: rest, log =>
    let ev : RotationEvent :=
      ⟨"rotate_failed", "server", "manual", ⟨none, [], ty ++ ": " ++ msg, none, []⟩⟩
    force_rotate_all rest (log ++ [ev])

/-- The single log record `force_rotate_all` appends for one handle. -/
def entryFor : ProtoHandle → RotationEvent
  | ProtoHandle.ok quic =>
    ⟨if (_try_rotate_local_cid quic).1 then "rotate_ok" else "rotate_failed",
      "server", "manual", (_try_rotate_local_cid quic).2⟩
  | ProtoHandle.raising ty msg =>
    ⟨"rotate_failed", "server", "manual", ⟨none, [], ty ++ ": " ++ msg, none, []⟩⟩

/-- JSON-serializable values appearing in a log record. -/
inductive JVal
  | str (s : String)
  | num (q : ℚ)
deriving DecidableEq, Repr

/-- A Python dict in insertion order (keys unique in actual use). -/
abbrev Dict := List (String × JVal)

/-- Python dict item assignment: an existing key keeps its position and
gets the new value; a new key is appended at the end. -/
def setItem (d : Dict) (k : String) (v : JVal) : Dict :=
  if (lookupS d k).isSome then
    d.map fun kv => if kv.1 = k then (k, v) else kv
  else d ++ [(k, v)]

/-- Rendering of one JSON value (string escaping elided: the model only
needs that the rendering is a function of the value). -/
def dumpsVal : JVal → String
  | JVal.str s => "\x22" ++ s ++ "\x22"
  | JVal.num q => toString q

/-- `json.dumps` of a dict, in insertion order. -/
def dumps (d : Dict) : String :=
  "\x7b" ++ String.intercalate ", "
    (d.map fun kv => "\x22" ++ kv.1 ++ "\x22: " ++ dumpsVal kv.2) ++ "\x7d"

/-- `JsonlLogger.log`: sets `ts` on the very dict passed by the caller,
then serializes that dict and appends the line.  The first component is
the caller-visible dict after the call (the mutation in place), the second
the written line. -/
def JsonlLogger.log (event : Dict) (sinkTime : ℚ) : Dict × String :=
  let ev := setItem event "ts" (JVal.num sinkTime)
  (ev, dumps ev)

/-- Whether the candidate manager at `n` exists and its `rotate` call
returns normally. -/
def rotateOkAt (quic : Endpoint) (n : String) : Bool :=
  match getMgr quic n with
  | some m =>
    match lookupS m.ops "rotate" with
    | some (CallRes.ret _) => true
    | _ => false
  | none => false

/-- Whether the candidate manager at `n` lacks a `rotate` operation
entirely (also true when no manager is attached at `n`). -/
def rotateAbsentAt (quic : Endpoint) (n : String) : Bool :=
  match getMgr quic n with
  | some m => (lookupS m.ops "rotate").isNone
  | none => true

/-- Whether calling the issue-style operation `f` on manager `m` returns
normally. -/
def innerOk (m : Manager) (f : String) : Bool :=
  match lookupS m.ops f with
  | some (CallRes.ret _) => true
  | _ => false

/-- Whether the candidate manager at `n` has some issue-style operation
that returns normally. -/
def mgrIssueOk (quic : Endpoint) (n : String) : Bool :=
  match getMgr quic n with
  | some m => issueFns.any (innerOk m)
  | none => false

/-- Whether the candidate manager at `n` lacks every issue-style
operation. -/
def issueAbsentAt (quic : Endpoint) (n : String) : Bool :=
  match getMgr quic n with
  | some m => issueFns.all fun f => (lookupS m.ops f).isNone
  | none => true

/-- Whether the endpoint-level operation `f` exists and returns
normally. -/
def directOkAt (quic : Endpoint) (f : String) : Bool :=
  match lookupS quic.ops f with
  | some (CallRes.ret _) => true
  | _ => false

/-- The first candidate manager whose `rotate` call returns normally. -/
def firstRotateSuccess (quic : Endpoint) : Option String :=
  candidates.find? (rotateOkAt quic)

/-- The first (manager, operation) pair, in the candidate-major order
Strategy B scans, whose issue-style call returns normally. -/
def firstIssueSuccess (quic : Endpoint) : Option (String × String) :=
  (candidates.find? (mgrIssueOk quic)).bind fun n =>
    (getMgr quic n).bind fun m =>
      (issueFns.find? (innerOk m)).map fun f => (n, f)

/-- The endpoint exposes no rotation-capable operation anywhere: no
manager has `rotate` or an issue-style operation, and no endpoint-level
change-identifier operation exists. -/
def noRotateSurface (quic : Endpoint) : Bool :=
  candidates.all (rotateAbsentAt quic) && candidates.all (issueAbsentAt quic)
    && directFns.all fun f => (lookupS quic.ops f).isNone

/-- An endpoint exposing nothing at all. -/
def epEmpty : Endpoint := ⟨[], [], []⟩

/-- A manager whose `rotate` raises `RuntimeError("boom")`. -/
def mgrRotRaises : Manager := ⟨[("rotate", CallRes.exc ⟨"RuntimeError", "boom"⟩)]⟩

/-- A manager whose `rotate` returns normally. -/
def mgrRotOk : Manager := ⟨[("rotate", CallRes.ret "None")]⟩

/-- An endpoint with two managers exposing `rotate`: the first raises, the
second succeeds. -/
def epTwoMgrs : Endpoint :=
  ⟨[("_local_cid_manager", some mgrRotRaises), ("_cid_manager", some mgrRotOk)],
    [], []⟩

/-- An endpoint with a manager exposing no operation, no endpoint-level
operations, and one diagnostic byte field. -/
def epDiag : Endpoint :=
  ⟨[("_cid_manager", some ⟨[]⟩)], [], [("_local_cid", PyVal.bytes [171, 205])]⟩

/-- A concrete manager state: deadline already passed, last rotation long
ago. -/
def sW : CidLifecycleManager := ⟨⟨30, 3, 10⟩, "server", FloatV.fin 3, 0⟩

/-- A concrete manager state: deadline passed but inside the anti-churn
gap. -/
def s3W : CidLifecycleManager := ⟨⟨30, 3, 10⟩, "client", FloatV.fin 3, 18⟩

/-- A concrete registry with exactly one handle that raises. -/
def psW : List ProtoHandle :=
  [ProtoHandle.ok epEmpty, ProtoHandle.raising "RuntimeError" "oops",
    ProtoHandle.ok epDiag]

/-- A concrete caller dict that already carries a `ts` entry. -/
def eventW : Dict := [("ts", JVal.num 1), ("event", JVal.str "rotate_ok")]

theorem loopA_ok (quic : Endpoint) (l : List String) :
    ∀ (strat : Option String) (note : String),
      (loopA quic l strat note).ok = l.any (rotateOkAt quic) := by
  induction l with
  | nil => intro strat note; simp [loopA]
  | cons n rest ih =>
    intro strat note
    cases hg : getMgr quic n with
    | none => simp [loopA, hg, rotateOkAt, ih]
    | some m =>
      cases hl : lookupS m.ops "rotate" with
      | none => simp [loopA, hg, hl, rotateOkAt, ih]
      | some cr =>
        cases cr with
        | ret v => simp [loopA, hg, hl, rotateOkAt]
        | exc e => simp [loopA, hg, hl, rotateOkAt, ih]

theorem loopA_first (quic : Endpoint) (l : List String) :
    ∀ (strat : Option String) (note : String) (n : String),
      l.find? (rotateOkAt quic) = some n →
      (loopA quic l strat note).ok = true ∧
      (loopA quic l strat note).strategy = some (n ++ ".rotate()") := by
  induction l with
  | nil => intro strat note n h; simp at h
  | cons a rest ih =>
    intro strat note n h
    cases hp : rotateOkAt quic a with
    | true =>
      rw [List.find?_cons_of_pos _ hp] at h
      injection h with h; subst h
      cases hg : getMgr quic a with
      | none => simp [rotateOkAt, hg] at hp
      | some m =>
        cases hl : lookupS m.ops "rotate" with
        | none => simp [rotateOkAt, hg, hl] at hp
        | some cr =>
          cases cr with
          | ret v => simp [loopA, hg, hl]
          | exc e => simp [rotateOkAt, hg, hl] at hp
    | false =>
      rw [List.find?_cons_of_neg _ (by simp [hp])] at h
      cases hg : getMgr quic a with
      | none => simpa [loopA, hg] using ih strat note n h
      | some m =>
        cases hl : lookupS m.ops "rotate" with
        | none => simpa [loopA, hg, hl] using ih strat note n h
        | some cr =>
          cases cr with
          | ret v => simp [rotateOkAt, hg, hl] at hp
          | exc e => simpa [loopA, hg, hl] using ih _ _ n h

theorem loopA_absent (quic : Endpoint) (l : List String) :
    ∀ (strat : Option String) (note : String),
      l.all (rotateAbsentAt quic) = true →
      loopA quic l strat note = ⟨false, strat, note⟩ := by
  induction l with
  | nil => intro strat note _; rfl
  | cons a rest ih =>
    intro strat note h
    rw [List.all_cons, Bool.and_eq_true] at h
    obtain ⟨h1, h2⟩ := h
    cases hg : getMgr quic a with
    | none => simpa [loopA, hg] using ih strat note h2
    | some m =>
      cases hl : lookupS m.ops "rotate" with
      | none => simpa [loopA, hg, hl] using ih strat note h2
      | some cr => simp [rotateAbsentAt, hg, hl] at h1

theorem loopBfns_ok (n : String) (m : Manager) (fns : List String) :
    ∀ (strat : Option String) (note : String),
      (loopBfns n m fns strat note).ok = fns.any (innerOk m) := by
  induction fns with
  | nil => intro strat note; simp [loopBfns]
  | cons f rest ih =>
    intro strat note
    cases hl : lookupS m.ops f with
    | none => simp [loopBfns, hl, innerOk, ih]
    | some cr =>
      cases cr with
      | ret v => simp [loopBfns, hl, innerOk]
      | exc e => simp [loopBfns, hl, innerOk, ih]

theorem loopBfns_first (n : String) (m : Manager) (fns : List String) :
    ∀ (strat : Option String) (note : String) (f : String),
      fns.find? (innerOk m) = some f →
      (loopBfns n m fns strat note).ok = true ∧
      (loopBfns n m fns strat note).strategy = some (n ++ "." ++ f ++ "()") := by
  induction fns with
  | nil => intro strat note f h; simp at h
  | cons a rest ih =>
    intro strat note f h
    cases hp : innerOk m a with
    | true =>
      rw [List.find?_cons_of_pos _ hp] at h
      injection h with h; subst h
      cases hl : lookupS m.ops a with
      | none => simp [innerOk, hl] at hp
      | some cr =>
        cases cr with
        | ret v => simp [loopBfns, hl]
        | exc e => simp [innerOk, hl] at hp
    | false =>
      rw [List.find?_cons_of_neg _ (by simp [hp])] at h
      cases hl : lookupS m.ops a with
      | none => simpa [loopBfns, hl] using ih strat note f h
      | some cr =>
        cases cr with
        | ret v => simp [innerOk, hl] at hp
        | exc e => simpa [loopBfns, hl] using ih _ _ f h

theorem loopBfns_absent (n : String) (m : Manager) (fns : List String) :
    ∀ (strat : Option String) (note : String),
      (fns.all fun f => (lookupS m.ops f).isNone) = true →
      loopBfns n m fns strat note = ⟨false, strat, note, none⟩ := by
  induction fns with
  | nil => intro strat note _; rfl
  | cons a rest ih =>
    intro strat note h
    rw [List.all_cons, Bool.and_eq_true] at h
    obtain ⟨h1, h2⟩ := h
    cases hl : lookupS m.ops a with
    | none => simpa [loopBfns, hl] using ih strat note h2
    | some cr => simp [hl] at h1

theorem loopB_ok (quic : Endpoint) (l : List String) :
    ∀ (strat : Option String) (note : String),
      (loopB quic l strat note).ok = l.any (mgrIssueOk quic) := by
  induction l with
  | nil => intro strat note; simp [loopB]
  | cons n rest ih =>
    intro strat note
    cases hg : getMgr quic n with
    | none => simp [loopB, hg, mgrIssueOk, ih]
    | some m =>
      have hin := loopBfns_ok n m issueFns strat note
      cases hb : (loopBfns n m issueFns strat note).ok with
      | true =>
        simp [loopB, hg, hb, mgrIssueOk, ← hin, hb]
      | false =>
        rw [hb] at hin
        simp [loopB, hg, hb, mgrIssueOk, ← hin, ih]

theorem loopB_first (quic : Endpoint) (l : List String) :
    ∀ (strat : Option String) (note : String) (n : String) (m : Manager) (f : String),
      l.find? (mgrIssueOk quic) = some n →
      getMgr quic n = some m →
      issueFns.find? (innerOk m) = some f →
      (loopB quic l strat note).ok = true ∧
      (loopB quic l strat note).strategy = some (n ++ "." ++ f ++ "()") := by
  induction l with
  | nil => intro strat note n m f h _ _; simp at h
  | cons a rest ih =>
    intro strat note n m f h hg hf
    cases hp : mgrIssueOk quic a with
    | true =>
      rw [List.find?_cons_of_pos _ hp] at h
      injection h with h; subst h
      have h1 := loopBfns_first a m issueFns strat note f hf
      simp only [loopB, hg]
      rw [if_pos h1.1]
      exact h1
    | false =>
      rw [List.find?_cons_of_neg _ (by simp [hp])] at h
      cases hg2 : getMgr quic a with
      | none => simpa [loopB, hg2] using ih strat note n m f h hg hf
      | some m2 =>
        simp only [mgrIssueOk, hg2] at hp
        have hin := loopBfns_ok a m2 issueFns strat note
        rw [hp] at hin
        simpa [loopB, hg2, hin] using
          ih (loopBfns a m2 issueFns strat note).strategy
            (loopBfns a m2 issueFns strat note).note n m f h hg hf

theorem loopB_absent (quic : Endpoint) (l : List String) :
    ∀ (strat : Option String) (note : String),
      l.all (issueAbsentAt quic) = true →
      loopB quic l strat note = ⟨false, strat, note, none⟩ := by
  induction l with
  | nil => intro strat note _; rfl
  | cons a rest ih =>
    intro strat note h
    rw [List.all_cons, Bool.and_eq_true] at h
    obtain ⟨h1, h2⟩ := h
    cases hg : getMgr quic a with
    | none => simpa [loopB, hg] using ih strat note h2
    | some m =>
      simp only [issueAbsentAt, hg] at h1
      have habs := loopBfns_absent a m issueFns strat note h1
      simpa [loopB, hg, habs] using ih strat note h2

theorem loopC_ok (quic : Endpoint) (l : List String) :
    ∀ (strat : Option String) (note : String),
      (loopC quic l strat note).ok = l.any (directOkAt quic) := by
  induction l with
  | nil => intro strat note; simp [loopC]
  | cons f rest ih =>
    intro strat note
    cases hl : lookupS quic.ops f with
    | none => simp [loopC, hl, directOkAt, ih]
    | some cr =>
      cases cr with
      | ret v => simp [loopC, hl, directOkAt]
      | exc e => simp [loopC, hl, directOkAt, ih]

theorem loopC_absent (quic : Endpoint) (l : List String) :
    ∀ (strat : Option String) (note : String),
      (l.all fun f => (lookupS quic.ops f).isNone) = true →
      loopC quic l strat note = ⟨false, strat, note⟩ := by
  induction l with
  | nil => intro strat note _; rfl
  | cons a rest ih =>
    intro strat note h
    rw [List.all_cons, Bool.and_eq_true] at h
    obtain ⟨h1, h2⟩ := h
    cases hl : lookupS quic.ops a with
    | none => simpa [loopC, hl] using ih strat note h2
    | some cr => simp [hl] at h1

theorem maybe_rotate_inf (s : CidLifecycleManager) (log : List RotationEvent)
    (quic : Endpoint) (now : ℚ) (reason : String)
    (h : s._next_deadline = FloatV.inf) :
    maybe_rotate s log quic now reason = (s, log) := by
  simp [maybe_rotate, h, timeLt]

theorem runTicks_inf (s : CidLifecycleManager)
    (h : s._next_deadline = FloatV.inf) :
    ∀ (ticks : List (Endpoint × ℚ × String)) (log : List RotationEvent),
      runTicks s log ticks = (s, log) := by
  intro ticks
  induction ticks with
  | nil => intro log; rfl
  | cons t rest ih =>
    intro log
    obtain ⟨q, tm, r⟩ := t
    simp [runTicks, maybe_rotate_inf s log q tm r h, ih]

theorem filter_partition_length {α : Type} (p : α → Bool) (l : List α) :
    (l.filter p).length + (l.filter fun a => !(p a)).length = l.length := by
  induction l with
  | nil => rfl
  | cons a rest ih =>
    cases h : p a <;> simp [List.filter_cons, h] <;> omega

theorem force_rotate_all_spec (ps : List ProtoHandle) :
    ∀ log : List RotationEvent,
      (force_rotate_all ps log).1 = log ++ ps.map entryFor ∧
      (force_rotate_all ps log).2 = (ps.filter fun p => !p.isRaising).length := by
  induction ps with
  | nil => intro log; simp [force_rotate_all]
  | cons p rest ih =>
    intro log
    cases p with
    | ok quic =>
      have hr := ih (log ++ [entryFor (ProtoHandle.ok quic)])
      refine ⟨?_, ?_⟩
      · simpa [force_rotate_all, entryFor] using hr.1
      · simpa [force_rotate_all, entryFor, ProtoHandle.isRaising,
          List.filter_cons] using hr.2
    | raising ty msg =>
      have hr := ih (log ++ [entryFor (ProtoHandle.raising ty msg)])
      refine ⟨?_, ?_⟩
      · simpa [force_rotate_all, entryFor] using hr.1
      · simpa [force_rotate_all, entryFor, ProtoHandle.isRaising,
          List.filter_cons] using hr.2

theorem lookupS_append {α : Type} (d1 d2 : List (String × α)) (k : String) :
    lookupS (d1 ++ d2) k =
      match lookupS d1 k with
      | some v => some v
      | none => lookupS d2 k := by
  induction d1 with
  | nil => rfl
  | cons kv rest ih =>
    obtain ⟨a, b⟩ := kv
    by_cases hk : a = k <;> simp [lookupS, hk, ih]

theorem lookupS_replace_self (d : Dict) (k : String) (v : JVal) :
    (lookupS d k).isSome = true →
    lookupS (d.map fun kv => if kv.1 = k then (k, v) else kv) k = some v := by
  induction d with
  | nil => intro h; simp [lookupS] at h
  | cons kv rest ih =>
    intro h
    obtain ⟨a, b⟩ := kv
    rw [List.map_cons]
    by_cases hk : a = k
    · subst hk
      have hh : (if (a, b).1 = a then (a, v) else (a, b)) = (a, v) := if_pos rfl
      rw [hh]
      simp [lookupS]
    · have hh : (if (a, b).1 = k then (k, v) else (a, b)) = (a, b) := if_neg hk
      rw [hh]
      simp only [lookupS, if_neg hk] at h ⊢
      exact ih h

theorem lookupS_replace_other (d : Dict) (k k2 : String) (v : JVal)
    (h : k2 ≠ k) :
    lookupS (d.map fun kv => if kv.1 = k then (k, v) else kv) k2 =
      lookupS d k2 := by
  induction d with
  | nil => rfl
  | cons kv rest ih =>
    obtain ⟨a, b⟩ := kv
    rw [List.map_cons]
    by_cases hk : a = k
    · subst hk
      have hh : (if (a, b).1 = a then (a, v) else (a, b)) = (a, v) := if_pos rfl
      rw [hh]
      simp [lookupS, Ne.symm h, ih]
    · have hh : (if (a, b).1 = k then (k, v) else (a, b)) = (a, b) := if_neg hk
      rw [hh]
      simp [lookupS, ih]

/-- C2: for every call of `maybe_rotate` that reaches step 3 (deadline
passed and the anti-churn gap satisfied), exactly one event is appended to
the log, of kind `rotate_ok` or `rotate_failed` according to the resolver
outcome and carrying the detail of the resolver; `_last_rotate` is set to
`now` unconditionally and `_next_deadline` is recomputed via
`_compute_next_deadline now`; invocations that stop at step 1 or step 2
append zero log entries. -/
theorem maybe_rotate_step3_effects (s : CidLifecycleManager)
    (log : List RotationEvent) (quic : Endpoint) (now : ℚ) (reason : String) :
    (timeLt now s._next_deadline = false →
      s.policy.min_gap_s ≤ now - s._last_rotate →
      (maybe_rotate s log quic now reason).2 =
        log ++ [⟨if (_try_rotate_local_cid quic).1 then "rotate_ok"
            else "rotate_failed", s.role, reason, (_try_rotate_local_cid quic).2⟩] ∧
      (maybe_rotate s log quic now reason).1._last_rotate = now ∧
      (maybe_rotate s log quic now reason).1._next_deadline =
        _compute_next_deadline s.policy now) ∧
    ((timeLt now s._next_deadline = true ∨
        now - s._last_rotate < s.policy.min_gap_s) →
      (maybe_rotate s log quic now reason).2 = log) := by
  constructor
  · intro h1 h2
    have h2x : ¬ (now - s._last_rotate < s.policy.min_gap_s) := not_lt.mpr h2
    simp [maybe_rotate, h1, h2x]
  · intro h
    rcases h with h1 | h2
    · simp [maybe_rotate, h1]
    · cases h1 : timeLt now s._next_deadline with
      | true => simp [maybe_rotate, h1]
      | false => simp [maybe_rotate, h1, h2]

/-- Witness for C2 at a concrete state and time. -/
theorem maybe_rotate_step3_effects_witness :
    timeLt 20 sW._next_deadline = false ∧
    sW.policy.min_gap_s ≤ 20 - sW._last_rotate ∧
    ((maybe_rotate sW [] epEmpty 20 "timer").2 =
      [] ++ [⟨if (_try_rotate_local_cid epEmpty).1 then "rotate_ok"
          else "rotate_failed", sW.role, "timer", (_try_rotate_local_cid epEmpty).2⟩] ∧
    (maybe_rotate sW [] epEmpty 20 "timer").1._last_rotate = 20 ∧
    (maybe_rotate sW [] epEmpty 20 "timer").1._next_deadline =
      _compute_next_deadline sW.policy 20) :=
  ⟨by decide, by norm_num [sW],
    (maybe_rotate_step3_effects sW [] epEmpty 20 "timer").1 (by decide)
      (by norm_num [sW])⟩

/-- C3: for every call of `maybe_rotate` where the deadline has passed but
the anti-churn gap is not yet satisfied, nothing is logged (so no rotation
is attempted), yet `_next_deadline` is advanced to
`_compute_next_deadline now`; `_last_rotate`, the policy and the role are
left unchanged. -/
theorem maybe_rotate_antichurn_frame (s : CidLifecycleManager)
    (log : List RotationEvent) (quic : Endpoint) (now : ℚ) (reason : String)
    (h1 : timeLt now s._next_deadline = false)
    (h2 : now - s._last_rotate < s.policy.min_gap_s) :
    (maybe_rotate s log quic now reason).2 = log ∧
    (maybe_rotate s log quic now reason).1._next_deadline =
      _compute_next_deadline s.policy now ∧
    (maybe_rotate s log quic now reason).1._last_rotate = s._last_rotate ∧
    (maybe_rotate s log quic now reason).1.policy = s.policy ∧
    (maybe_rotate s log quic now reason).1.role = s.role := by
  simp [maybe_rotate, h1, h2]

/-- Witness for C3 at a concrete state and time. -/
theorem maybe_rotate_antichurn_frame_witness :
    timeLt 20 s3W._next_deadline = false ∧
    (20 : ℚ) - s3W._last_rotate < s3W.policy.min_gap_s ∧
    ((maybe_rotate s3W [] epEmpty 20 "timer").2 = [] ∧
    (maybe_rotate s3W [] epEmpty 20 "timer").1._next_deadline =
      _compute_next_deadline s3W.policy 20 ∧
    (maybe_rotate s3W [] epEmpty 20 "timer").1._last_rotate = s3W._last_rotate ∧
    (maybe_rotate s3W [] epEmpty 20 "timer").1.policy = s3W.policy ∧
    (maybe_rotate s3W [] epEmpty 20 "timer").1.role = s3W.role) :=
  ⟨by decide, by norm_num [s3W],
    maybe_rotate_antichurn_frame s3W [] epEmpty 20 "timer" (by decide)
      (by norm_num [s3W])⟩

/-- C6: for every policy with a non-positive rotation interval,
`_compute_next_deadline` returns the infinity sentinel, and a manager
constructed from such a policy never appends a log entry and never changes
state, over any sequence of ticks at any times. -/
theorem disabled_policy_never_rotates (p : RotationPolicy) (role : String)
    (t0 : ℚ) (log : List RotationEvent)
    (ticks : List (Endpoint × ℚ × String))
    (h : p.rotate_interval_s ≤ 0) :
    _compute_next_deadline p t0 = FloatV.inf ∧
    runTicks (CidLifecycleManager.init p role t0) log ticks =
      (CidLifecycleManager.init p role t0, log) := by
  refine ⟨by simp [_compute_next_deadline, h], runTicks_inf _ ?_ ticks log⟩
  simp [CidLifecycleManager.init, _compute_next_deadline, h]

/-- Witness for C6 with a disabled policy and two ticks. -/
theorem disabled_policy_never_rotates_witness :
    (0 : ℚ) ≤ 0 ∧
    (_compute_next_deadline ⟨0, 2, 5⟩ 7 = FloatV.inf ∧
      runTicks (CidLifecycleManager.init ⟨0, 2, 5⟩ "server" 7) []
        [(epEmpty, 100, "timer"), (epTwoMgrs, 1000, "timer")] =
        (CidLifecycleManager.init ⟨0, 2, 5⟩ "server" 7, [])) :=
  ⟨by decide,
    disabled_policy_never_rotates ⟨0, 2, 5⟩ "server" 7 []
      [(epEmpty, 100, "timer"), (epTwoMgrs, 1000, "timer")] (by decide)⟩

/-- C5 counterexample: the claimed strict upper bound and lower bound fail
in the code. With `jitter_s = 0` the result equals
`now + rotate_interval_s`, not strictly less than
`now + rotate_interval_s + jitter_s`; and with a negative `now` the
fractional-part term is negative, so the result falls strictly below
`now + rotate_interval_s`. -/
theorem deadline_bounds_cex :
    (_compute_next_deadline ⟨1, 0, 0⟩ 0 = FloatV.fin 1 ∧
      ¬ ((1 : ℚ) < 0 + 1 + 0)) ∧
    (_compute_next_deadline ⟨1, 2, 0⟩ (-(1 : ℚ)/2) = FloatV.fin (-(1 : ℚ)/2) ∧
      ¬ ((-(1 : ℚ)/2) + 1 ≤ -(1 : ℚ)/2)) := by
  have hc : ⌈-(1/2 : ℚ)⌉ = 0 := Int.ceil_eq_iff.mpr (by norm_num)
  refine ⟨⟨?_, by norm_num⟩, ⟨?_, by norm_num⟩⟩ <;>
    norm_num [_compute_next_deadline, pyInt, hc]

/-- C5 (amended): for every nonnegative `now` and every policy with
`rotate_interval_s > 0` and `jitter_s ≥ 0`, the computed deadline is
finite, at least `now + rotate_interval_s`, at most
`now + rotate_interval_s + jitter_s` (strictly below it whenever
`jitter_s > 0`), and strictly greater than `now`. -/
theorem deadline_bounds (p : RotationPolicy) (now : ℚ)
    (h0 : 0 ≤ now) (h1 : 0 < p.rotate_interval_s) (h2 : 0 ≤ p.jitter_s) :
    _compute_next_deadline p now ≠ FloatV.inf ∧
    now + p.rotate_interval_s ≤ finVal (_compute_next_deadline p now) ∧
    finVal (_compute_next_deadline p now) ≤
      now + p.rotate_interval_s + p.jitter_s ∧
    (0 < p.jitter_s →
      finVal (_compute_next_deadline p now) <
        now + p.rotate_interval_s + p.jitter_s) ∧
    now < finVal (_compute_next_deadline p now) := by
  have hni : ¬ p.rotate_interval_s ≤ 0 := not_le.mpr h1
  have hpy : pyInt now = ⌊now⌋ := if_pos h0
  have hfl : (⌊now⌋ : ℚ) ≤ now := Int.floor_le now
  have hfu : now < (⌊now⌋ : ℚ) + 1 := Int.lt_floor_add_one now
  have hj0 : 0 ≤ (now - (⌊now⌋ : ℚ)) * p.jitter_s :=
    mul_nonneg (by linarith) h2
  have hj1 : (now - (⌊now⌋ : ℚ)) * p.jitter_s ≤ p.jitter_s := by
    nlinarith
  simp only [_compute_next_deadline, if_neg hni, finVal, hpy]
  refine ⟨by simp, by linarith, by linarith, ?_, by linarith⟩
  intro hj
  have : (now - (⌊now⌋ : ℚ)) * p.jitter_s < 1 * p.jitter_s :=
    mul_lt_mul_of_pos_right (by linarith) hj
  linarith

/-- Witness for the amended C5 at a concrete policy and time. -/
theorem deadline_bounds_witness :
    (0 : ℚ) ≤ 3/2 ∧ (0 : ℚ) < (30 : ℚ) ∧ (0 : ℚ) ≤ (3 : ℚ) ∧
    (_compute_next_deadline ⟨30, 3, 10⟩ (3/2) ≠ FloatV.inf ∧
      (3/2 : ℚ) + 30 ≤ finVal (_compute_next_deadline ⟨30, 3, 10⟩ (3/2)) ∧
      finVal (_compute_next_deadline ⟨30, 3, 10⟩ (3/2)) ≤ (3/2 : ℚ) + 30 + 3 ∧
      ((0 : ℚ) < 3 →
        finVal (_compute_next_deadline ⟨30, 3, 10⟩ (3/2)) < (3/2 : ℚ) + 30 + 3) ∧
      (3/2 : ℚ) < finVal (_compute_next_deadline ⟨30, 3, 10⟩ (3/2))) :=
  ⟨by norm_num, by norm_num, by norm_num,
    deadline_bounds ⟨30, 3, 10⟩ (3/2) (by norm_num) (by norm_num) (by norm_num)⟩

/-- C1 counterexample: on an endpoint whose first manager exposes `rotate`
raising an exception and whose second manager exposes `rotate` that
succeeds, the resolver does NOT stop at the first attempted manager: it
records the exception in the note, moves on, and returns success with the
strategy of the second manager. -/
theorem rotate_continues_after_exception_cex :
    (_try_rotate_local_cid epTwoMgrs).1 = true ∧
    (_try_rotate_local_cid epTwoMgrs).2.strategy = some "_cid_manager.rotate()" ∧
    (_try_rotate_local_cid epTwoMgrs).2.note =
      "rotate() raised: RuntimeError: boom" := by
  refine ⟨by decide, by decide, by decide⟩

/-- C1 (amended): the first manager whose zero-argument `rotate` call
SUCCEEDS is the final answer of the resolver; a manager whose `rotate`
raises is recorded and skipped, and Strategy B is reached, and decides with
the first succeeding issue-style call, exactly when no `rotate` call of any
manager succeeded. -/
theorem strategyA_first_success_final (quic : Endpoint) :
    (∀ n, firstRotateSuccess quic = some n →
      (_try_rotate_local_cid quic).1 = true ∧
      (_try_rotate_local_cid quic).2.strategy = some (n ++ ".rotate()")) ∧
    (firstRotateSuccess quic = none →
      ∀ n f, firstIssueSuccess quic = some (n, f) →
        (_try_rotate_local_cid quic).1 = true ∧
        (_try_rotate_local_cid quic).2.strategy =
          some (n ++ "." ++ f ++ "()")) := by
  constructor
  · intro n hn
    have h1 := loopA_first quic candidates none "" n hn
    simp [_try_rotate_local_cid, h1.1, h1.2]
  · intro hnone n f hnf
    have haok : (loopA quic candidates none "").ok = false := by
      rw [loopA_ok]
      rw [List.any_eq_false]
      intro x hx
      simpa using List.find?_eq_none.mp hnone x hx
    unfold firstIssueSuccess at hnf
    cases hfind : candidates.find? (mgrIssueOk quic) with
    | none => simp [hfind] at hnf
    | some n2 =>
      simp only [hfind, Option.some_bind] at hnf
      cases hg : getMgr quic n2 with
      | none => simp [hg] at hnf
      | some m =>
        simp only [hg, Option.some_bind] at hnf
        cases hf : issueFns.find? (innerOk m) with
        | none => simp [hf] at hnf
        | some f2 =>
          simp only [hf] at hnf
          simp at hnf
          obtain ⟨hn2, hf2⟩ := hnf
          subst hn2; subst hf2
          have hB := loopB_first quic candidates
            (loopA quic candidates none "").strategy
            (loopA quic candidates none "").note n2 m f2 hfind hg hf
          simp [_try_rotate_local_cid, haok, hB.1, hB.2]

/-- C1 (amended) witness: on the two-manager endpoint the first manager
raises and the second succeeds, so the first succeeding manager is the
final answer. -/
theorem strategyA_first_success_final_witness :
    firstRotateSuccess epTwoMgrs = some "_cid_manager" ∧
    ((_try_rotate_local_cid epTwoMgrs).1 = true ∧
      (_try_rotate_local_cid epTwoMgrs).2.strategy =
        some ("_cid_manager" ++ ".rotate()")) :=
  ⟨by decide,
    (strategyA_first_success_final epTwoMgrs).1 "_cid_manager" (by decide)⟩

/-- C4: the resolver returns success exactly when some operation call in
Strategies A, B or C exists and returns normally, and the detail always
records the discovered candidate managers.  Totality of the embedding
models the contract that the resolver never raises to its caller. -/
theorem try_rotate_result_contract (quic : Endpoint) :
    ((_try_rotate_local_cid quic).1 =
      (candidates.any (rotateOkAt quic) || candidates.any (mgrIssueOk quic)
        || directFns.any (directOkAt quic))) ∧
    (_try_rotate_local_cid quic).2.found =
      candidates.filter (fun n => (lookupS quic.managers n).isSome) := by
  have hA := loopA_ok quic candidates none ""
  cases ha : (loopA quic candidates none "").ok with
  | true =>
    rw [ha] at hA
    constructor
    · simp [_try_rotate_local_cid, ha, ← hA]
    · simp [_try_rotate_local_cid, ha]
  | false =>
    rw [ha] at hA
    have hB := loopB_ok quic candidates (loopA quic candidates none "").strategy
      (loopA quic candidates none "").note
    cases hb : (loopB quic candidates (loopA quic candidates none "").strategy
        (loopA quic candidates none "").note).ok with
    | true =>
      rw [hb] at hB
      constructor
      · simp [_try_rotate_local_cid, ha, hb, ← hA, ← hB]
      · simp [_try_rotate_local_cid, ha, hb]
    | false =>
      rw [hb] at hB
      have hC := loopC_ok quic directFns
        (loopB quic candidates (loopA quic candidates none "").strategy
          (loopA quic candidates none "").note).strategy
        (loopB quic candidates (loopA quic candidates none "").strategy
          (loopA quic candidates none "").note).note
      cases hc : (loopC quic directFns
          (loopB quic candidates (loopA quic candidates none "").strategy
            (loopA quic candidates none "").note).strategy
          (loopB quic candidates (loopA quic candidates none "").strategy
            (loopA quic candidates none "").note).note).ok with
      | true =>
        rw [hc] at hC
        constructor
        · simp [_try_rotate_local_cid, ha, hb, hc, ← hA, ← hB, ← hC]
        · simp [_try_rotate_local_cid, ha, hb, hc]
      | false =>
        rw [hc] at hC
        constructor
        · simp [_try_rotate_local_cid, ha, hb, hc, ← hA, ← hB, ← hC]
        · simp [_try_rotate_local_cid, ha, hb, hc]

/-- C9: an endpoint exposing no rotation-capable operation anywhere makes
the resolver return failure with a null strategy, the default non-empty
note, and the dump of every known diagnostic field that exists on the
endpoint (in hex for byte fields). -/
theorem no_surface_diagnostic_fallback (quic : Endpoint)
    (h : noRotateSurface quic = true) :
    _try_rotate_local_cid quic =
      (false, ⟨none,
        candidates.filter (fun n => (lookupS quic.managers n).isSome),
        noApiNote, none, debugDump quic⟩) ∧
    noApiNote ≠ "" ∧
    ∀ nm ∈ dbgNames, ∀ v, lookupS quic.fields nm = some v →
      (nm, renderField v) ∈ debugDump quic := by
  unfold noRotateSurface at h
  rw [Bool.and_eq_true, Bool.and_eq_true] at h
  obtain ⟨⟨hA, hB⟩, hC⟩ := h
  have ha := loopA_absent quic candidates none "" hA
  have hb := loopB_absent quic candidates none "" hB
  have hc := loopC_absent quic directFns none "" hC
  refine ⟨?_, by decide, ?_⟩
  · simp [_try_rotate_local_cid, ha, hb, hc]
  · intro nm hnm v hv
    unfold debugDump
    exact List.mem_filterMap.mpr ⟨nm, hnm, by rw [hv]; rfl⟩

/-- C9 witness: a concrete endpoint with one operation-less manager and
one diagnostic byte field. -/
theorem no_surface_diagnostic_fallback_witness :
    noRotateSurface epDiag = true ∧
    (_try_rotate_local_cid epDiag =
      (false, ⟨none,
        candidates.filter (fun n => (lookupS epDiag.managers n).isSome),
        noApiNote, none, debugDump epDiag⟩) ∧
    noApiNote ≠ "" ∧
    ∀ nm ∈ dbgNames, ∀ v, lookupS epDiag.fields nm = some v →
      (nm, renderField v) ∈ debugDump epDiag) :=
  ⟨by decide, no_surface_diagnostic_fallback epDiag (by decide)⟩

/-- C7 counterexample: over a registry of two handles of which the first
raises, two rotation attempts are iterated but the counter the function
produces (the value it prints; the Python function returns `None`) is 1,
not the number of attempts made. -/
theorem force_rotate_count_cex :
    ([ProtoHandle.raising "ConnectionError" "closing",
      ProtoHandle.ok epEmpty] : List ProtoHandle).length = 2 ∧
    (force_rotate_all
      [ProtoHandle.raising "ConnectionError" "closing",
        ProtoHandle.ok epEmpty] []).2 = 1 := by
  refine ⟨by decide, by decide⟩

/-- C7 (amended): `force_rotate_all` iterates a snapshot of the registry,
invokes the resolver directly on each live endpoint (appending, in order,
one record per handle, each with role `server` and reason `manual` and,
for live endpoints, the outcome and detail of the resolver), and prints —
rather than returns, the Python function returns `None` — a count of the
handles processed without exception; a handle that raises is logged but
not counted. -/
theorem force_rotate_all_behavior (ps : List ProtoHandle)
    (log : List RotationEvent) :
    (force_rotate_all ps log).1 = log ++ ps.map entryFor ∧
    (∀ p : ProtoHandle, (entryFor p).reason = "manual" ∧
      (entryFor p).role = "server") ∧
    (∀ quic : Endpoint, entryFor (ProtoHandle.ok quic) =
      ⟨if (_try_rotate_local_cid quic).1 then "rotate_ok" else "rotate_failed",
        "server", "manual", (_try_rotate_local_cid quic).2⟩) ∧
    (force_rotate_all ps log).2 = (ps.filter fun p => !p.isRaising).length := by
  refine ⟨(force_rotate_all_spec ps log).1, ?_, ?_,
    (force_rotate_all_spec ps log).2⟩
  · intro p; cases p <;> simp [entryFor]
  · intro quic; rfl

/-- C8: over a registry with exactly one raising handle, the batch
operation appends exactly one record per handle (so none is lost and, the
embedding being total, no exception escapes), all but one of which carry
the resolver outcome, the raising handle yielding a `rotate_failed` record
for the caught exception. -/
theorem force_rotate_isolates_exceptions (ps : List ProtoHandle)
    (log : List RotationEvent)
    (h : (ps.filter fun p => p.isRaising).length = 1) :
    (force_rotate_all ps log).1.length = log.length + ps.length ∧
    (force_rotate_all ps log).1 = log ++ ps.map entryFor ∧
    (ps.filter fun p => !p.isRaising).length = ps.length - 1 ∧
    ∀ p ∈ ps, p.isRaising = true → (entryFor p).event = "rotate_failed" := by
  have hsp := force_rotate_all_spec ps log
  have hpart := filter_partition_length (fun p : ProtoHandle => p.isRaising) ps
  refine ⟨?_, hsp.1, ?_, ?_⟩
  · rw [hsp.1]; simp
  · omega
  · intro p _ hr
    cases p with
    | ok quic => simp [ProtoHandle.isRaising] at hr
    | raising ty msg => rfl

/-- C8 witness: a concrete three-handle registry with one raising
handle. -/
theorem force_rotate_isolates_exceptions_witness :
    (psW.filter fun p => p.isRaising).length = 1 ∧
    ((force_rotate_all psW []).1.length =
        ([] : List RotationEvent).length + psW.length ∧
      (force_rotate_all psW []).1 = [] ++ psW.map entryFor ∧
      (psW.filter fun p => !p.isRaising).length = psW.length - 1 ∧
      ∀ p ∈ psW, p.isRaising = true → (entryFor p).event = "rotate_failed") :=
  ⟨by decide, force_rotate_isolates_exceptions psW [] (by decide)⟩

/-- C10: `JsonlLogger.log` sets the `ts` key on the very dict object the
caller passed before serializing it: the caller-visible dict after the
call is `setItem event "ts"` at the sink time, any caller-supplied `ts`
is overwritten by the sink time, every other key is untouched, and the
written line is the serialization of that updated dict. -/
theorem log_sets_ts_on_caller_dict (event : Dict) (t : ℚ) :
    (JsonlLogger.log event t).1 = setItem event "ts" (JVal.num t) ∧
    lookupS (JsonlLogger.log event t).1 "ts" = some (JVal.num t) ∧
    (∀ k, k ≠ "ts" →
      lookupS (JsonlLogger.log event t).1 k = lookupS event k) ∧
    (JsonlLogger.log event t).2 = dumps (JsonlLogger.log event t).1 := by
  refine ⟨rfl, ?_, ?_, rfl⟩
  · show lookupS (setItem event "ts" (JVal.num t)) "ts" = some (JVal.num t)
    unfold setItem
    by_cases h : (lookupS event "ts").isSome = true
    · rw [if_pos h]
      exact lookupS_replace_self event "ts" (JVal.num t) h
    · rw [if_neg h]
      rw [lookupS_append]
      cases hl : lookupS event "ts" with
      | some v => rw [hl] at h; simp at h
      | none => simp [lookupS]
  · intro k hk
    show lookupS (setItem event "ts" (JVal.num t)) k = lookupS event k
    unfold setItem
    by_cases h : (lookupS event "ts").isSome = true
    · rw [if_pos h]
      exact lookupS_replace_other event "ts" k (JVal.num t) hk
    · rw [if_neg h]
      rw [lookupS_append]
      cases hl : lookupS event k with
      | some v => simp
      | none => simp [lookupS, Ne.symm hk]

/-- C10 witness: a concrete caller dict that already carries `ts = 1`;
after the call its `ts` is the sink time 2 and its other key is
untouched. -/
theorem log_sets_ts_on_caller_dict_witness :
    ("event" : String) ≠ "ts" ∧
    lookupS (JsonlLogger.log eventW 2).1 "ts" = some (JVal.num 2) ∧
    lookupS (JsonlLogger.log eventW 2).1 "event" = lookupS eventW "event" :=
  ⟨by decide, (log_sets_ts_on_caller_dict eventW 2).2.1,
    (log_sets_ts_on_caller_dict eventW 2).2.2.1 "event" (by decide)⟩
